import Mathlib

/-!
Verification of the x402 payment-agent core (challenge parsing, payment
construction, header encoding, purchase orchestration) against its
natural-language specification.  The TypeScript sources are shallowly
embedded: addresses, base58 strings and blockhashes are modelled as
`String`, byte buffers as `List Nat`, JavaScript numbers used for USDC
amounts as exact rationals (`ℚ`), and thrown errors as `Except`.
-/

/-! ## Errors thrown by the payment handler

The source throws `Error(...)` with message strings; we name the distinct
throw sites. -/

inductive X402Error where
  /-- thrown by `parseChallenge`: "No payment option in x402 challenge" -/
  | malformedChallenge
  /-- thrown by `createPayment`: "Insufficient USDC balance. ..." -/
  | insufficientFunds
  /-- the call `BigInt(parsed.amountRaw)` raises `SyntaxError` when the string is not
  a plain integer literal -/
  | invalidAmount
  deriving DecidableEq, Repr

/-! ## Data model (api-client.ts interfaces) -/

/-- the `extra` object of an accepted payment option (`X402Challenge`). -/
structure X402Extra where
  feePayer : Option String
  deriving DecidableEq, Repr

/-- one entry of `X402Challenge.accepts` (api-client.ts lines 46-59). -/
structure X402Accept where
  scheme : String
  network : String
  maxAmountRequired : String
  resource : String
  description : String
  mimeType : String
  payTo : String
  maxTimeoutSeconds : Nat
  asset : String
  extra : Option X402Extra
  deriving DecidableEq, Repr

/-- the `X402Challenge` interface (api-client.ts lines 43-60). -/
structure X402Challenge where
  x402Version : Nat
  error : String
  accepts : List X402Accept
  deriving DecidableEq, Repr

/-! ## JavaScript numeric-string primitives -/

/-- value of a list of decimal digit characters, most significant first. -/
def digitsVal (ds : List Char) : Nat :=
  ds.foldl (fun acc c => 10 * acc + (c.toNat - 48)) 0

/-- JS `parseInt(s)` on the strings reaching this code: reads the longest
leading run of decimal digits; `none` models the `NaN` result when no
leading digit exists.  (Leading whitespace/sign handling of full `parseInt`
is not exercised by this code and not modelled.) -/
def jsParseInt (s : String) : Option Nat :=
  let ds := s.data.takeWhile (fun c => c.isDigit)
  if ds = [] then none else some (digitsVal ds)

/-- JS `BigInt(s)`: succeeds only when the whole string is a decimal
integer literal, otherwise raises `SyntaxError` (modelled by `none`). -/
def jsBigInt (s : String) : Option Nat :=
  if s.data ≠ [] ∧ s.data.all (fun c => c.isDigit) then some (digitsVal s.data)
  else none

/-! ## Challenge Parser (x402-handler `parseChallenge`, part_001 lines 37-66) -/

/-- result record of `parseChallenge`.  `amount` is
`parseInt(accept.maxAmountRequired) / 1_000_000`; `none` models `NaN`. -/
structure ParsedChallenge where
  payTo : String
  amount : Option ℚ
  amountRaw : String
  network : String
  asset : String
  resource : String
  scheme : String
  maxTimeoutSeconds : Nat
  x402Version : Nat
  feePayer : Option String
  deriving DecidableEq, Repr

/-- source `parseChallenge`: takes `accepts[0]`; throws when it is absent
(`if (!accept) throw`), otherwise copies the first option's fields. -/
def parseChallenge (challenge : X402Challenge) : Except X402Error ParsedChallenge :=
  match challenge.accepts.head? with
  | none => .error .malformedChallenge
  | some accept => .ok {
      payTo := accept.payTo
      amount := (jsParseInt accept.maxAmountRequired).map (fun (n : Nat) => (n : ℚ) / 1000000)
      amountRaw := accept.maxAmountRequired
      network := accept.network
      asset := accept.asset
      resource := accept.resource
      scheme := accept.scheme
      maxTimeoutSeconds := accept.maxTimeoutSeconds
      x402Version := challenge.x402Version
      feePayer := accept.extra.bind (fun e => e.feePayer) }

/-! ## Runtime (unvalidated) view of a raw challenge

`initiatePurchase` casts `response.json()` to `X402Challenge` without
validation, so at runtime any field of the body may be absent
(`undefined`).  The raw structures make every field optional and
`parseChallengeRaw` transcribes the very same source lines 37-66 over
them: an absent field flows through as `undefined`; the only check the
code performs is `if (!accept)` on `accepts[0]`. -/

structure RawExtra where
  feePayer : Option String
  deriving DecidableEq, Repr

structure RawAccept where
  scheme : Option String
  network : Option String
  maxAmountRequired : Option String
  resource : Option String
  description : Option String
  mimeType : Option String
  payTo : Option String
  maxTimeoutSeconds : Option Nat
  asset : Option String
  extra : Option RawExtra
  deriving DecidableEq, Repr

structure RawChallenge where
  x402Version : Option Nat
  error : Option String
  accepts : List RawAccept
  deriving DecidableEq, Repr

/-- result of `parseChallenge` on a raw (unvalidated) challenge: absent
input fields surface as absent output fields, nothing is checked. -/
structure RawParsedChallenge where
  payTo : Option String
  amount : Option ℚ
  amountRaw : Option String
  network : Option String
  asset : Option String
  resource : Option String
  scheme : Option String
  maxTimeoutSeconds : Option Nat
  x402Version : Option Nat
  feePayer : Option String
  deriving DecidableEq, Repr

/-- source `parseChallenge` as executed on arbitrary runtime input: the only
failure is `accepts[0]` being absent. -/
def parseChallengeRaw (challenge : RawChallenge) : Except X402Error RawParsedChallenge :=
  match challenge.accepts.head? with
  | none => .error .malformedChallenge
  | some accept => .ok {
      payTo := accept.payTo
      amount := (accept.maxAmountRequired.bind jsParseInt).map (fun (n : Nat) => (n : ℚ) / 1000000)
      amountRaw := accept.maxAmountRequired
      network := accept.network
      asset := accept.asset
      resource := accept.resource
      scheme := accept.scheme
      maxTimeoutSeconds := accept.maxTimeoutSeconds
      x402Version := challenge.x402Version
      feePayer := accept.extra.bind (fun e => e.feePayer) }

/-! ## Wallet (wallet source, part_000) -/

/-- a Solana keypair: base58 public key and raw 64-byte secret key. -/
structure Keypair where
  publicKey : String
  secretKey : List Nat
  deriving DecidableEq, Repr

/-- class `AgentWallet` holds a keypair (part_000 lines 10-12). -/
structure AgentWallet where
  keypair : Keypair
  deriving DecidableEq, Repr

/-- getter `publicKey` (part_000 lines 29-31). -/
def AgentWallet.publicKey (w : AgentWallet) : String :=
  w.keypair.publicKey

/-- method `sign(message)` (part_000 lines 78-80): the body is
`return this.keypair.secretKey;` — the message is ignored. -/
def AgentWallet.sign (w : AgentWallet) (message : List Nat) : List Nat :=
  w.keypair.secretKey

/-! ## Base64 (Node `Buffer.toString("base64")` / `Buffer.from(_, "base64")`) -/

/-- the standard base64 alphabet. -/
def base64Chars : List Char :=
  "ABCDEFGHIJKLMNOPQRSTUVWXYZabcdefghijklmnopqrstuvwxyz0123456789+/".data

/-- character for a sextet value. -/
def sextetChar (n : Nat) : Char :=
  base64Chars.getD n 'A'

/-- sextet value of an alphabet character. -/
def charSextet (c : Char) : Option Nat :=
  base64Chars.indexOf? c

/-- base64 encoding of a byte list, with `=` padding. -/
def b64Enc : List Nat → List Char
  | a :: b :: c :: rest =>
      sextetChar (a / 4) :: sextetChar ((a % 4) * 16 + b / 16) ::
      sextetChar ((b % 16) * 4 + c / 64) :: sextetChar (c % 64) :: b64Enc rest
  | [a, b] =>
      [sextetChar (a / 4), sextetChar ((a % 4) * 16 + b / 16),
       sextetChar ((b % 16) * 4), '=']
  | [a] =>
      [sextetChar (a / 4), sextetChar ((a % 4) * 16), '=', '=']
  | [] => []

/-- base64 decoding; `none` on malformed input. -/
def b64Dec : List Char → Option (List Nat)
  | c1 :: c2 :: c3 :: c4 :: rest =>
      if c3 = '=' ∧ c4 = '=' ∧ rest = [] then
        match charSextet c1, charSextet c2 with
        | some s1, some s2 => some [s1 * 4 + s2 / 16]
        | _, _ => none
      else if c4 = '=' ∧ rest = [] then
        match charSextet c1, charSextet c2, charSextet c3 with
        | some s1, some s2, some s3 =>
            some [s1 * 4 + s2 / 16, (s2 % 16) * 16 + s3 / 4]
        | _, _, _ => none
      else
        match charSextet c1, charSextet c2, charSextet c3, charSextet c4,
              b64Dec rest with
        | some s1, some s2, some s3, some s4, some bs =>
            some ((s1 * 4 + s2 / 16) :: ((s2 % 16) * 16 + s3 / 4) ::
                  ((s3 % 4) * 64 + s4) :: bs)
        | _, _, _, _, _ => none
  | [] => some []
  | _ => none

/-! ## Payment envelope (part_001 lines 173-183)

The payment payload object
`\x7bx402Version, scheme, network, payload:\x7btransaction\x7d\x7d` is
JSON-serialised with fields in insertion order and base64-encoded to give
the X-PAYMENT header. -/

/-- the JSON envelope wrapped into the X-PAYMENT header. -/
structure PaymentEnvelope where
  x402Version : Nat
  scheme : String
  network : String
  transaction : String
  deriving DecidableEq, Repr

/-- decimal rendering of a natural number, exactly what `JSON.stringify`
prints for a non-negative integer. -/
def natToDec (n : Nat) : List Char :=
  if h : n < 10 then [Char.ofNat (48 + n)]
  else natToDec (n / 10) ++ [Char.ofNat (48 + n % 10)]
termination_by n
decreasing_by exact Nat.div_lt_self (by omega) (by omega)

/-- fixed JSON segment before the version number. -/
def jsonKeyVersion : List Char := "\x7b\"x402Version\":".data

/-- fixed JSON segment between version and scheme value. -/
def jsonKeyScheme : List Char := ",\"scheme\":\"".data

/-- fixed JSON segment between scheme and network value. -/
def jsonKeyNetwork : List Char := "\",\"network\":\"".data

/-- fixed JSON segment between network and transaction value. -/
def jsonKeyPayload : List Char := "\",\"payload\":\x7b\"transaction\":\"".data

/-- fixed JSON closing segment. -/
def jsonSuffix : List Char := "\"\x7d\x7d".data

/-- the characters of `JSON.stringify(paymentPayload)` (line 183): fields
in insertion order, the three string values emitted verbatim (the values
this code produces contain no character `JSON.stringify` escapes). -/
def jsonEnvelopeChars (e : PaymentEnvelope) : List Char :=
  jsonKeyVersion ++ natToDec e.x402Version ++
  jsonKeyScheme ++ e.scheme.data ++
  jsonKeyNetwork ++ e.network.data ++
  jsonKeyPayload ++ e.transaction.data ++ jsonSuffix

/-- the X-PAYMENT header:
`Buffer.from(JSON.stringify(paymentPayload)).toString("base64")`. -/
def encodeEnvelopeHeader (e : PaymentEnvelope) : List Char :=
  b64Enc ((jsonEnvelopeChars e).map Char.toNat)

/-- consume an exact expected segment from the front of the input. -/
def dropExact : List Char → List Char → Option (List Char)
  | [], s => some s
  | p :: ps, c :: cs => if c = p then dropExact ps cs else none
  | _ :: _, [] => none

/-- Modelled from the spec: the repository contains no decoder for the
X-PAYMENT header (the facilitator/server side consumes it); spec section 6
fixes the transport format bit-exactly as base64 of the JSON envelope and
describes decoding as its inverse.  This parses the JSON object produced
by `jsonEnvelopeChars`. -/
def decodeEnvelopeJson (s : List Char) : Option PaymentEnvelope :=
  (dropExact jsonKeyVersion s).bind fun s1 =>
    let ds := s1.takeWhile (fun c => c.isDigit)
    let s2 := s1.dropWhile (fun c => c.isDigit)
    if ds = [] then none else
    (dropExact jsonKeyScheme s2).bind fun s3 =>
      let sch := s3.takeWhile (fun c => c != '"')
      let s4 := s3.dropWhile (fun c => c != '"')
      (dropExact jsonKeyNetwork s4).bind fun s5 =>
        let net := s5.takeWhile (fun c => c != '"')
        let s6 := s5.dropWhile (fun c => c != '"')
        (dropExact jsonKeyPayload s6).bind fun s7 =>
          let tx := s7.takeWhile (fun c => c != '"')
          let s8 := s7.dropWhile (fun c => c != '"')
          if s8 = jsonSuffix then
            some { x402Version := digitsVal ds, scheme := ⟨sch⟩,
                   network := ⟨net⟩, transaction := ⟨tx⟩ }
          else none

/-- Modelled from the spec: full header decoding, the inverse of the
transport format of spec section 6 — base64-decode the header, read the
bytes as characters, parse the JSON envelope. -/
def decodeEnvelopeHeader (h : List Char) : Option PaymentEnvelope :=
  (b64Dec h).bind fun bytes => decodeEnvelopeJson (bytes.map Char.ofNat)

/-- a string `JSON.stringify` emits verbatim between quotes: printable
ASCII without quote or backslash. -/
def jsonSafe (s : String) : Prop :=
  ∀ c ∈ s.data, 32 ≤ c.toNat ∧ c.toNat < 128 ∧ c ≠ '"' ∧ c ≠ '\\'

instance (s : String) : Decidable (jsonSafe s) := by
  unfold jsonSafe; infer_instance

/-! ## Transaction building (x402-handler `createPayment`, part_001 lines 90-192) -/

/-- USDC token mint address on Solana devnet (part_001 line 20). -/
def USDC_DEVNET_MINT : String := "4zMMC9srt5Ri5X14GAgXhaHii3GnPAEERYPJgZJDncDU"

/-- the deterministic associated-token-address derivation
`getAssociatedTokenAddress(mint, owner)` of the SPL token library: an
opaque pure program-derived-address hash of the pair, modelled as tagged
concatenation of its two inputs. -/
def getAssociatedTokenAddress (mint owner : String) : String :=
  "ata(" ++ mint ++ "," ++ owner ++ ")"

/-- method `getUsdcTokenAccount(owner)` (part_001 lines 69-71): the
associated token account of `owner` for the hard-coded USDC mint. -/
def getUsdcTokenAccount (owner : String) : String :=
  getAssociatedTokenAddress USDC_DEVNET_MINT owner

/-- a Solana instruction, restricted to the three kinds this program
emits. -/
inductive Instruction where
  /-- `ComputeBudgetProgram.setComputeUnitPrice` — the priority-fee
  instruction -/
  | setComputeUnitPrice (microLamports : Nat)
  /-- `ComputeBudgetProgram.setComputeUnitLimit` — the compute/resource
  limit instruction -/
  | setComputeUnitLimit (units : Nat)
  /-- `createTransferCheckedInstruction(source, mint, destination, owner,
  amount, decimals)` — the asset-transfer instruction -/
  | transferChecked (source : String) (mint : String) (destination : String)
      (owner : String) (amount : Nat) (decimals : Nat)
  deriving DecidableEq, Repr

/-- recogniser for the priority-fee instruction. -/
def Instruction.isPriorityFee : Instruction → Bool
  | .setComputeUnitPrice _ => true
  | _ => false

/-- recogniser for the compute/resource-limit instruction. -/
def Instruction.isComputeLimit : Instruction → Bool
  | .setComputeUnitLimit _ => true
  | _ => false

/-- recogniser for the asset-transfer instruction. -/
def Instruction.isTransfer : Instruction → Bool
  | .transferChecked _ _ _ _ _ _ => true
  | _ => false

/-- the compiled `TransactionMessage` (part_001 lines 153-157). -/
structure TransactionMessage where
  payerKey : String
  recentBlockhash : String
  instructions : List Instruction
  deriving DecidableEq, Repr

/-- a `VersionedTransaction` carrying the signatures added so far; the
agent adds only its own partial signature (line 164), the facilitator's
is appended later, externally. -/
structure VersionedTransaction where
  message : TransactionMessage
  signerKeys : List String
  deriving DecidableEq, Repr

/-- rendering of one instruction inside the opaque wire serialization. -/
def instrStr : Instruction → String
  | .setComputeUnitPrice n => "price(" ++ toString n ++ ")"
  | .setComputeUnitLimit n => "limit(" ++ toString n ++ ")"
  | .transferChecked s m d o a dec =>
      "transfer(" ++ s ++ "," ++ m ++ "," ++ d ++ "," ++ o ++ "," ++
      toString a ++ "," ++ toString dec ++ ")"

/-- the opaque binary wire serialization `transaction.serialize()` of the
ledger SDK, modelled as the bytes of a tagged rendering of the
transaction's content; the claims only pass these bytes to base64. -/
def serializeTx (tx : VersionedTransaction) : List Nat :=
  ("v0tx(" ++ tx.message.payerKey ++ ";" ++ tx.message.recentBlockhash ++ ";" ++
   String.intercalate "," (tx.message.instructions.map instrStr) ++ ";" ++
   String.intercalate "," tx.signerKeys ++ ")").data.map (fun c => c.toNat % 256)

/-- the `PaymentProof` interface (part_001 lines 22-25). -/
structure PaymentProof where
  header : String
  transactionHash : String
  deriving DecidableEq, Repr

/-- every intermediate of one `createPayment` run that the specification
speaks about, together with the returned proof. -/
structure CreatePaymentResult where
  parsed : ParsedChallenge
  message : TransactionMessage
  transaction : VersionedTransaction
  envelope : PaymentEnvelope
  proof : PaymentProof
  deriving DecidableEq, Repr

/-- method `createPayment(keypair, challenge)` (part_001 lines 90-192).
Network reads are explicit inputs: `balanceBaseUnits` is the token-account
amount behind `getUsdcBalance` (0 when the account is missing, per its
catch branch) and `blockhash` the value from `getLatestBlockhash`.
Mirrors the source line by line; returns every intermediate the claims
inspect along with the returned `PaymentProof`. -/
def createPaymentFull (keypair : Keypair) (challenge : X402Challenge)
    (balanceBaseUnits : Nat) (blockhash : String) :
    Except X402Error CreatePaymentResult :=
  match parseChallenge challenge with
  | .error e => .error e
  | .ok parsed =>
    let balance : ℚ := (balanceBaseUnits : ℚ) / 1000000
    let insufficient : Bool := match parsed.amount with
      | some a => decide (balance < a)
      | none => false
    if insufficient then .error .insufficientFunds
    else
      let senderTokenAccount := getUsdcTokenAccount keypair.publicKey
      let recipientTokenAccount := getAssociatedTokenAddress USDC_DEVNET_MINT parsed.payTo
      match jsBigInt parsed.amountRaw with
      | none => .error .invalidAmount
      | some amountInBaseUnits =>
        let feePayerPubkey := match parsed.feePayer with
          | some f => if f = "" then keypair.publicKey else f
          | none => keypair.publicKey
        let computeBudgetIx := Instruction.setComputeUnitPrice 1
        let computeLimitIx := Instruction.setComputeUnitLimit 100000
        let transferIx := Instruction.transferChecked senderTokenAccount USDC_DEVNET_MINT
          recipientTokenAccount keypair.publicKey amountInBaseUnits 6
        let messageV0 : TransactionMessage :=
          { payerKey := feePayerPubkey
            recentBlockhash := blockhash
            instructions := [computeLimitIx, computeBudgetIx, transferIx] }
        let transaction : VersionedTransaction :=
          { message := messageV0, signerKeys := [keypair.publicKey] }
        let serializedTx := String.mk (b64Enc (serializeTx transaction))
        let paymentPayload : PaymentEnvelope :=
          { x402Version := parsed.x402Version
            scheme := parsed.scheme
            network := parsed.network
            transaction := serializedTx }
        let paymentHeader := String.mk (encodeEnvelopeHeader paymentPayload)
        .ok { parsed := parsed
              message := messageV0
              transaction := transaction
              envelope := paymentPayload
              proof := { header := paymentHeader, transactionHash := "pending-settlement" } }

/-- public face of `createPayment`: just the returned `PaymentProof`. -/
def createPayment (keypair : Keypair) (challenge : X402Challenge)
    (balanceBaseUnits : Nat) (blockhash : String) : Except X402Error PaymentProof :=
  (createPaymentFull keypair challenge balanceBaseUnits blockhash).map
    (fun r => r.proof)

/-! ## Purchase Orchestrator (agent.ts `purchaseImage`, lines 212-266) -/

/-- outcome of one purchase attempt: the record `purchaseImage` returns
and the caller stores in `purchasedImages`. -/
structure PurchaseOutcome where
  success : Bool
  txHash : Option String
  deriving DecidableEq, Repr

/-- method `purchaseImage` (agent.ts lines 212-266), with the network
interactions as explicit inputs: `status` is the HTTP status of
`initiatePurchase`, `challenge` its body when it is a 402 challenge,
`balanceBaseUnits` and `blockhash` feed `createPayment`, and `completeOk`
tells whether `completePurchase` (the resubmission carrying the proof)
resolves with a success response.  On 402 the payment handler runs; if it
throws, the outer catch returns a plain failure; if the resubmission
fails, the produced proof's transaction hash is still returned. -/
def purchaseImage (keypair : Keypair) (status : Nat) (challenge : X402Challenge)
    (balanceBaseUnits : Nat) (blockhash : String) (completeOk : Bool) :
    PurchaseOutcome :=
  if status = 402 then
    match createPayment keypair challenge balanceBaseUnits blockhash with
    | .ok paymentProof =>
        if completeOk then { success := true, txHash := some paymentProof.transactionHash }
        else { success := false, txHash := some paymentProof.transactionHash }
    | .error _ => { success := false, txHash := none }
  else if status = 200 then { success := true, txHash := none }
  else { success := false, txHash := none }

/-- the fee payer the built message uses, given the first option's
optional `extra.feePayer` (JS truthiness: absent or empty string falls
back to the payer's own key). -/
def resolvedFeePayer (keypair : Keypair) (fp : Option String) : String :=
  match fp with
  | some f => if f = "" then keypair.publicKey else f
  | none => keypair.publicKey

/-! ## Concrete fixtures used by witnesses and counterexamples -/

/-- a concrete valid payment option. -/
def sampleAccept : X402Accept :=
  { scheme := "exact", network := "solana-devnet", maxAmountRequired := "10000",
    resource := "https://api/img", description := "img", mimeType := "image/png",
    payTo := "PAYEE", maxTimeoutSeconds := 60, asset := "USDCMINT", extra := none }

/-- a concrete valid challenge carrying `sampleAccept`. -/
def sampleChallenge : X402Challenge :=
  { x402Version := 1, error := "payment required", accepts := [sampleAccept] }

/-- a concrete agent keypair. -/
def sampleKeypair : Keypair := { publicKey := "AGENTPUBKEY", secretKey := [7, 7] }

/-! ## Claim C1 — instruction order -/

/-- the instruction order the specification claims: priority-fee first,
then compute-limit, then transfer. -/
def specClaimedOrder (l : List Instruction) : Bool :=
  match l with
  | [p, c, t] => p.isPriorityFee && c.isComputeLimit && t.isTransfer
  | _ => false

theorem charSextet_sextetChar : ∀ n < 64, charSextet (sextetChar n) = some n := by
  decide

theorem sextetChar_ne_pad : ∀ n < 64, sextetChar n ≠ '=' := by
  decide

/-- base64 decoding is a left inverse of encoding on byte lists. -/
theorem b64Dec_b64Enc : ∀ bs : List Nat, (∀ b ∈ bs, b < 256) →
    b64Dec (b64Enc bs) = some bs
  | [], _ => rfl
  | [a], h => by
      have ha : a < 256 := h a (by simp)
      simp only [b64Enc, b64Dec, and_true, reduceIte]
      rw [charSextet_sextetChar _ (by omega), charSextet_sextetChar _ (by omega)]
      simp only [Option.some.injEq, List.cons.injEq, and_true]
      omega
  | [a, b], h => by
      have ha : a < 256 := h a (by simp)
      have hb : b < 256 := h b (by simp)
      have h3 : sextetChar (b % 16 * 4) ≠ '=' := sextetChar_ne_pad _ (by omega)
      simp only [b64Enc, b64Dec, and_true, reduceIte]
      rw [if_neg (by simp [h3])]
      rw [charSextet_sextetChar _ (by omega), charSextet_sextetChar _ (by omega),
          charSextet_sextetChar _ (by omega)]
      simp only [Option.some.injEq, List.cons.injEq, and_true]
      omega
  | a :: b :: c :: rest, h => by
      have ha : a < 256 := h a (by simp)
      have hb : b < 256 := h b (by simp)
      have hc : c < 256 := h c (by simp)
      have ih := b64Dec_b64Enc rest (fun x hx => h x (by simp [hx]))
      have h3 : sextetChar (b % 16 * 4 + c / 64) ≠ '=' := sextetChar_ne_pad _ (by omega)
      have h4 : sextetChar (c % 64) ≠ '=' := sextetChar_ne_pad _ (by omega)
      simp only [b64Enc, b64Dec]
      rw [if_neg (by simp [h3]), if_neg (by simp [h4])]
      rw [charSextet_sextetChar _ (by omega), charSextet_sextetChar _ (by omega),
          charSextet_sextetChar _ (by omega), charSextet_sextetChar _ (by omega), ih]
      simp only [Option.some.injEq, List.cons.injEq, and_true]
      omega

/-! ## Round-trip lemmas for the transport encoding -/

theorem dropExact_append (p r : List Char) : dropExact p (p ++ r) = some r := by
  induction p with
  | nil => rfl
  | cons c cs ih => simp [dropExact, ih]

/-- splitting `l ++ (k ++ r)` at the first character failing `p`, when all
of `l` satisfies `p`, `k` is nonempty and its head fails `p`. -/
theorem takeWhile_dropWhile_seg (p : Char → Bool) (l k r : List Char)
    (hl : ∀ x ∈ l, p x = true) (hk : k ≠ []) (hh : p (k.headD 'A') = false) :
    (l ++ (k ++ r)).takeWhile p = l ∧ (l ++ (k ++ r)).dropWhile p = k ++ r := by
  obtain ⟨c, k', rfl⟩ : ∃ c k', k = c :: k' := by
    cases k with
    | nil => exact absurd rfl hk
    | cons c k' => exact ⟨c, k', rfl⟩
  simp only [List.headD_cons] at hh
  induction l with
  | nil => simp [List.takeWhile_cons, List.dropWhile_cons, hh]
  | cons a as ih =>
      have ha : p a = true := hl a (by simp)
      have h' := ih (fun x hx => hl x (by simp [hx]))
      simp only [List.cons_append] at h' ⊢
      simp only [List.takeWhile_cons, List.dropWhile_cons, ha, if_true]
      exact ⟨by rw [h'.1], by rw [h'.2]⟩

theorem digitChar_isDigit : ∀ d < 10, (Char.ofNat (48 + d)).isDigit = true := by
  decide

theorem digitChar_toNat : ∀ d < 10, (Char.ofNat (48 + d)).toNat = 48 + d := by
  decide

theorem natToDec_digits (n : Nat) : ∀ c ∈ natToDec n, c.isDigit = true := by
  induction n using Nat.strong_induction_on with
  | _ n ih =>
    by_cases h : n < 10
    · rw [natToDec, dif_pos h]
      intro c hc
      simp only [List.mem_singleton] at hc
      subst hc
      exact digitChar_isDigit n h
    · rw [natToDec, dif_neg h]
      intro c hc
      rcases List.mem_append.mp hc with h1 | h1
      · exact ih (n / 10) (Nat.div_lt_self (by omega) (by omega)) c h1
      · simp only [List.mem_singleton] at h1
        subst h1
        exact digitChar_isDigit (n % 10) (by omega)

theorem natToDec_toNat_lt (n : Nat) : ∀ c ∈ natToDec n, c.toNat < 128 := by
  induction n using Nat.strong_induction_on with
  | _ n ih =>
    by_cases h : n < 10
    · rw [natToDec, dif_pos h]
      intro c hc
      simp only [List.mem_singleton] at hc
      subst hc
      rw [digitChar_toNat n h]
      omega
    · rw [natToDec, dif_neg h]
      intro c hc
      rcases List.mem_append.mp hc with h1 | h1
      · exact ih (n / 10) (Nat.div_lt_self (by omega) (by omega)) c h1
      · simp only [List.mem_singleton] at h1
        subst h1
        rw [digitChar_toNat (n % 10) (by omega)]
        omega

theorem natToDec_ne_nil (n : Nat) : natToDec n ≠ [] := by
  by_cases h : n < 10
  · rw [natToDec, dif_pos h]
    simp
  · rw [natToDec, dif_neg h]
    simp

theorem digitsVal_append_digit (l : List Char) (c : Char) :
    digitsVal (l ++ [c]) = 10 * digitsVal l + (c.toNat - 48) := by
  simp [digitsVal, List.foldl_append]

theorem digitsVal_natToDec (n : Nat) : digitsVal (natToDec n) = n := by
  induction n using Nat.strong_induction_on with
  | _ n ih =>
    by_cases h : n < 10
    · rw [natToDec, dif_pos h]
      show 10 * 0 + ((Char.ofNat (48 + n)).toNat - 48) = n
      rw [digitChar_toNat n h]
      omega
    · rw [natToDec, dif_neg h]
      rw [digitsVal_append_digit, ih (n / 10) (Nat.div_lt_self (by omega) (by omega)),
        digitChar_toNat (n % 10) (by omega)]
      omega

/-- decoding inverts JSON serialisation of an envelope whose string fields
are JSON-safe. -/
theorem decodeEnvelopeJson_encode (e : PaymentEnvelope)
    (hs : jsonSafe e.scheme) (hn : jsonSafe e.network) (ht : jsonSafe e.transaction) :
    decodeEnvelopeJson (jsonEnvelopeChars e) = some e := by
  obtain ⟨v, sch, net, tx⟩ := e
  have hdig : ∀ x ∈ natToDec v, (fun c => c.isDigit) x = true := natToDec_digits v
  have hsch : ∀ x ∈ sch.data, (fun c => c != '"') x = true := by
    intro x hx
    simpa using (hs x hx).2.2.1
  have hnet : ∀ x ∈ net.data, (fun c => c != '"') x = true := by
    intro x hx
    simpa using (hn x hx).2.2.1
  have htx : ∀ x ∈ tx.data, (fun c => c != '"') x = true := by
    intro x hx
    simpa using (ht x hx).2.2.1
  have hsplit1 := takeWhile_dropWhile_seg (fun c => c.isDigit) (natToDec v) jsonKeyScheme
    (sch.data ++ (jsonKeyNetwork ++ (net.data ++ (jsonKeyPayload ++ (tx.data ++ jsonSuffix)))))
    hdig (by decide) (by decide)
  have hsplit2 := takeWhile_dropWhile_seg (fun c => c != '"') sch.data jsonKeyNetwork
    (net.data ++ (jsonKeyPayload ++ (tx.data ++ jsonSuffix))) hsch (by decide) (by decide)
  have hsplit3 := takeWhile_dropWhile_seg (fun c => c != '"') net.data jsonKeyPayload
    (tx.data ++ jsonSuffix) hnet (by decide) (by decide)
  have hsplit4 := takeWhile_dropWhile_seg (fun c => c != '"') tx.data jsonSuffix
    [] htx (by decide) (by decide)
  rw [jsonEnvelopeChars]
  simp only [List.append_assoc, List.append_nil] at hsplit4 ⊢
  rw [decodeEnvelopeJson, dropExact_append]
  simp only [Option.some_bind]
  rw [hsplit1.1, hsplit1.2, if_neg (natToDec_ne_nil v), dropExact_append]
  simp only [Option.some_bind]
  rw [hsplit2.1, hsplit2.2, dropExact_append]
  simp only [Option.some_bind]
  rw [hsplit3.1, hsplit3.2, dropExact_append]
  simp only [Option.some_bind]
  rw [hsplit4.1, hsplit4.2, if_pos rfl, digitsVal_natToDec]

theorem jsonKeySegs_ascii :
    (∀ c ∈ jsonKeyVersion, c.toNat < 128) ∧ (∀ c ∈ jsonKeyScheme, c.toNat < 128) ∧
    (∀ c ∈ jsonKeyNetwork, c.toNat < 128) ∧ (∀ c ∈ jsonKeyPayload, c.toNat < 128) ∧
    (∀ c ∈ jsonSuffix, c.toNat < 128) := by
  decide

theorem jsonEnvelopeChars_ascii (e : PaymentEnvelope)
    (hs : jsonSafe e.scheme) (hn : jsonSafe e.network) (ht : jsonSafe e.transaction) :
    ∀ c ∈ jsonEnvelopeChars e, c.toNat < 128 := by
  intro c hc
  simp only [jsonEnvelopeChars, List.append_assoc, List.mem_append] at hc
  rcases hc with h | h | h | h | h | h | h | h | h
  · exact jsonKeySegs_ascii.1 c h
  · exact natToDec_toNat_lt _ c h
  · exact jsonKeySegs_ascii.2.1 c h
  · exact (hs c h).2.1
  · exact jsonKeySegs_ascii.2.2.1 c h
  · exact (hn c h).2.1
  · exact jsonKeySegs_ascii.2.2.2.1 c h
  · exact (ht c h).2.1
  · exact jsonKeySegs_ascii.2.2.2.2 c h

/-- C6: for every well-formed payment envelope (the JSON object with
fields x402Version, scheme, network, payload.transaction, the string
fields JSON-safe), decoding the header produced by encoding the envelope
— where encoding is JSON-serialise-then-base64 exactly as in
`createPayment` line 183, and decoding is the inverse fixed by spec
section 6 — yields the envelope back unchanged. -/
theorem envelope_encode_decode_roundtrip (e : PaymentEnvelope)
    (hs : jsonSafe e.scheme) (hn : jsonSafe e.network) (ht : jsonSafe e.transaction) :
    decodeEnvelopeHeader (encodeEnvelopeHeader e) = some e := by
  have hb : ∀ b ∈ (jsonEnvelopeChars e).map Char.toNat, b < 256 := by
    intro b hbm
    obtain ⟨c, hc, rfl⟩ := List.mem_map.mp hbm
    have := jsonEnvelopeChars_ascii e hs hn ht c hc
    omega
  rw [encodeEnvelopeHeader, decodeEnvelopeHeader, b64Dec_b64Enc _ hb, Option.some_bind,
    List.map_map]
  have hid : (jsonEnvelopeChars e).map (Char.ofNat ∘ Char.toNat) = jsonEnvelopeChars e := by
    have h' : ∀ c ∈ jsonEnvelopeChars e, (Char.ofNat ∘ Char.toNat) c = id c := by
      intro c _
      simp [Char.ofNat_toNat]
    rw [List.map_congr_left h', List.map_id]
  rw [hid]
  exact decodeEnvelopeJson_encode e hs hn ht

/-- C6 witness: the round-trip at a concrete envelope. -/
theorem envelope_encode_decode_roundtrip_witness :
    (jsonSafe "solana" ∧ jsonSafe "devnet" ∧ jsonSafe "AA==") ∧
    decodeEnvelopeHeader (encodeEnvelopeHeader ⟨1, "solana", "devnet", "AA=="⟩) =
      some ⟨1, "solana", "devnet", "AA=="⟩ :=
  ⟨⟨by decide, by decide, by decide⟩,
    envelope_encode_decode_roundtrip ⟨1, "solana", "devnet", "AA=="⟩
      (by decide) (by decide) (by decide)⟩

/-! ## Reduction lemmas for `createPaymentFull` -/

theorem parseChallenge_head (ch : X402Challenge) (a : X402Accept)
    (hh : ch.accepts.head? = some a) :
    parseChallenge ch = .ok {
      payTo := a.payTo
      amount := (jsParseInt a.maxAmountRequired).map (fun (n : Nat) => (n : ℚ) / 1000000)
      amountRaw := a.maxAmountRequired
      network := a.network
      asset := a.asset
      resource := a.resource
      scheme := a.scheme
      maxTimeoutSeconds := a.maxTimeoutSeconds
      x402Version := ch.x402Version
      feePayer := a.extra.bind (fun e => e.feePayer) } := by
  unfold parseChallenge
  rw [hh]

theorem jsParseInt_of_jsBigInt (s : String) (n : Nat) (h : jsBigInt s = some n) :
    jsParseInt s = some n := by
  unfold jsBigInt at h
  split at h
  case isTrue hcond =>
    injection h with h'
    have htake : s.data.takeWhile (fun c => c.isDigit) = s.data := by
      rw [List.takeWhile_eq_self_iff]
      intro c hc
      exact (List.all_eq_true.mp hcond.2) c hc
    unfold jsParseInt
    simp only [htake]
    rw [if_neg hcond.1, h']
  case isFalse => exact absurd h (by simp)

/-- dividing by the fixed 1e6 scale preserves strict order of naturals. -/
theorem div_millionth_lt (x y : Nat) :
    ((x : ℚ) / 1000000 < (y : ℚ) / 1000000) ↔ x < y := by
  rw [div_lt_div_right (by norm_num : (0:ℚ) < 1000000)]
  exact_mod_cast Iff.rfl

/-- characterisation of a successful `createPayment` run. -/
theorem createPaymentFull_ok (kp : Keypair) (ch : X402Challenge)
    (bal : Nat) (bh : String) (a : X402Accept) (amt : Nat)
    (hh : ch.accepts.head? = some a)
    (hamt : jsBigInt a.maxAmountRequired = some amt)
    (hbal : amt ≤ bal) :
    createPaymentFull kp ch bal bh = .ok (
      let messageV0 : TransactionMessage :=
        { payerKey := resolvedFeePayer kp (a.extra.bind (fun e => e.feePayer))
          recentBlockhash := bh
          instructions := [Instruction.setComputeUnitLimit 100000,
            Instruction.setComputeUnitPrice 1,
            Instruction.transferChecked (getUsdcTokenAccount kp.publicKey)
              USDC_DEVNET_MINT
              (getAssociatedTokenAddress USDC_DEVNET_MINT a.payTo)
              kp.publicKey amt 6] }
      let transaction : VersionedTransaction :=
        { message := messageV0, signerKeys := [kp.publicKey] }
      let envelope : PaymentEnvelope :=
        { x402Version := ch.x402Version
          scheme := a.scheme
          network := a.network
          transaction := String.mk (b64Enc (serializeTx transaction)) }
      { parsed := {
          payTo := a.payTo
          amount := some ((amt : ℚ) / 1000000)
          amountRaw := a.maxAmountRequired
          network := a.network
          asset := a.asset
          resource := a.resource
          scheme := a.scheme
          maxTimeoutSeconds := a.maxTimeoutSeconds
          x402Version := ch.x402Version
          feePayer := a.extra.bind (fun e => e.feePayer) }
        message := messageV0
        transaction := transaction
        envelope := envelope
        proof := { header := String.mk (encodeEnvelopeHeader envelope)
                   transactionHash := "pending-settlement" } }) := by
  unfold createPaymentFull
  rw [parseChallenge_head ch a hh, jsParseInt_of_jsBigInt _ _ hamt]
  simp only [Option.map_some]
  have hins : ¬ ((bal : ℚ) / 1000000 < (amt : ℚ) / 1000000) := by
    rw [div_millionth_lt]
    omega
  rw [if_neg (by simpa using hins), hamt]
  rfl

/-- inversion: a successful `createPayment` run determines its inputs'
shape and its whole result. -/
theorem createPaymentFull_ok_inv (kp : Keypair) (ch : X402Challenge)
    (bal : Nat) (bh : String) (r : CreatePaymentResult)
    (hr : createPaymentFull kp ch bal bh = .ok r) :
    ∃ a amt, ch.accepts.head? = some a ∧ jsBigInt a.maxAmountRequired = some amt ∧
      amt ≤ bal ∧ createPaymentFull kp ch bal bh = .ok r ∧
      r.message.payerKey = resolvedFeePayer kp (a.extra.bind (fun e => e.feePayer)) ∧
      r.message.recentBlockhash = bh ∧
      r.message.instructions = [Instruction.setComputeUnitLimit 100000,
        Instruction.setComputeUnitPrice 1,
        Instruction.transferChecked (getUsdcTokenAccount kp.publicKey)
          USDC_DEVNET_MINT
          (getAssociatedTokenAddress USDC_DEVNET_MINT a.payTo)
          kp.publicKey amt 6] ∧
      r.envelope.scheme = a.scheme ∧ r.envelope.network = a.network ∧
      r.envelope.x402Version = ch.x402Version ∧
      r.parsed = {
        payTo := a.payTo
        amount := some ((amt : ℚ) / 1000000)
        amountRaw := a.maxAmountRequired
        network := a.network
        asset := a.asset
        resource := a.resource
        scheme := a.scheme
        maxTimeoutSeconds := a.maxTimeoutSeconds
        x402Version := ch.x402Version
        feePayer := a.extra.bind (fun e => e.feePayer) } := by
  rcases hch : ch.accepts.head? with _ | a
  · unfold createPaymentFull at hr
    rw [parseChallenge, hch] at hr
    simp at hr
  · have hr' := hr
    unfold createPaymentFull at hr'
    rw [parseChallenge_head ch a hch] at hr'
    simp only [] at hr'
    rcases hjs : jsParseInt a.maxAmountRequired with _ | n
    · rw [hjs] at hr'
      simp only [Option.map_none'] at hr'
      rw [if_neg (by simp)] at hr'
      rcases hbig : jsBigInt a.maxAmountRequired with _ | m
      · rw [hbig] at hr'
        simp at hr'
      · exfalso
        rw [jsParseInt_of_jsBigInt _ _ hbig] at hjs
        exact Option.noConfusion hjs
    · rw [hjs] at hr'
      simp only [Option.map_some'] at hr'
      by_cases hlt : (bal : ℚ) / 1000000 < (n : ℚ) / 1000000
      · rw [if_pos (by simpa using hlt)] at hr'
        exact absurd hr' (by simp)
      · rw [if_neg (by simpa using hlt)] at hr'
        rcases hbig : jsBigInt a.maxAmountRequired with _ | m
        · rw [hbig] at hr'
          simp at hr'
        · rw [hbig] at hr'
          simp only [Except.ok.injEq] at hr'
          have hnm : n = m := by
            have := jsParseInt_of_jsBigInt _ _ hbig
            rw [hjs] at this
            exact (Option.some.injEq _ _ ▸ this.symm : m = n).symm
          subst hnm
          refine ⟨a, n, rfl, hbig, ?_, hr, ?_⟩
          · rw [div_millionth_lt] at hlt
            omega
          · subst hr'
            exact ⟨rfl, rfl, rfl, rfl, rfl, rfl, rfl⟩

/-- C1 counterexample: on a concrete valid challenge the payment builds
successfully, yet the transaction's instruction list is not in the
claimed order [priority-fee, compute-limit, transfer]: the code emits the
compute-limit instruction first (part_001 line 156). -/
theorem instruction_order_claim_counterexample :
    ∃ r, createPaymentFull sampleKeypair sampleChallenge 10000 "BLOCKHASH" = .ok r ∧
      specClaimedOrder r.message.instructions = false := by
  have h := createPaymentFull_ok sampleKeypair sampleChallenge 10000 "BLOCKHASH"
    sampleAccept 10000 rfl (by decide) (by decide)
  exact ⟨_, h, rfl⟩

/-- C1 (amended): for every valid payment option and arbitrary field
values, the unsigned transaction built by `createPayment` contains
exactly three instructions in the fixed order [compute/resource-limit
instruction, priority-fee instruction, asset-transfer instruction]. -/
theorem instruction_order_fixed (kp : Keypair) (ch : X402Challenge)
    (bal : Nat) (bh : String) (r : CreatePaymentResult)
    (hr : createPaymentFull kp ch bal bh = .ok r) :
    ∃ cl pf tr, r.message.instructions = [cl, pf, tr] ∧
      cl.isComputeLimit = true ∧ pf.isPriorityFee = true ∧ tr.isTransfer = true := by
  obtain ⟨a, amt, h1, h2, h3, h4, h5, h6, hins, h8⟩ :=
    createPaymentFull_ok_inv kp ch bal bh r hr
  exact ⟨_, _, _, hins, rfl, rfl, rfl⟩

/-- C1 witness: the amended order at a concrete run. -/
theorem instruction_order_fixed_witness :
    ∃ r, createPaymentFull sampleKeypair sampleChallenge 10000 "BLOCKHASH" = .ok r ∧
      ∃ cl pf tr, r.message.instructions = [cl, pf, tr] ∧
        cl.isComputeLimit = true ∧ pf.isPriorityFee = true ∧ tr.isTransfer = true := by
  have h := createPaymentFull_ok sampleKeypair sampleChallenge 10000 "BLOCKHASH"
    sampleAccept 10000 rfl (by decide) (by decide)
  exact ⟨_, h, instruction_order_fixed _ _ _ _ _ h⟩

/-! ## Claim C2 — insufficient-funds boundary -/

/-- C2: for every challenge (with a first option whose amount string is a
decimal integer) and signer balance, `createPayment` aborts with
InsufficientFunds iff the signer's balance is strictly less than the
required amount; at exact equality the payment succeeds. -/
theorem insufficient_funds_iff (kp : Keypair) (ch : X402Challenge)
    (bal : Nat) (bh : String) (a : X402Accept) (amt : Nat)
    (hh : ch.accepts.head? = some a)
    (hamt : jsBigInt a.maxAmountRequired = some amt) :
    (createPaymentFull kp ch bal bh = .error .insufficientFunds ↔ bal < amt) ∧
    (bal = amt → ∃ r, createPaymentFull kp ch bal bh = .ok r) := by
  refine ⟨⟨?_, ?_⟩, ?_⟩
  · intro herr
    by_contra hge
    push_neg at hge
    have h := createPaymentFull_ok kp ch bal bh a amt hh hamt hge
    rw [h] at herr
    exact Except.noConfusion herr
  · intro hlt
    have hcond : ((bal : Nat) : ℚ) / 1000000 < ((amt : Nat) : ℚ) / 1000000 :=
      (div_millionth_lt bal amt).mpr hlt
    unfold createPaymentFull
    rw [parseChallenge_head ch a hh, jsParseInt_of_jsBigInt _ _ hamt]
    simp only [Option.map_some']
    rw [if_pos (by simpa using hcond)]
  · intro heq
    exact ⟨_, createPaymentFull_ok kp ch bal bh a amt hh hamt (le_of_eq heq.symm)⟩

/-- C2 witness: the spec's own scenario — the challenge requires 500000
base units of the 6-decimal asset and the wallet holds 400000 base units
(0.4 units), so the run aborts with InsufficientFunds; and at exactly
500000 base units it succeeds. -/
theorem insufficient_funds_iff_witness :
    createPaymentFull sampleKeypair
      { x402Version := 1, error := "", accepts := [{ sampleAccept with maxAmountRequired := "500000" }] }
      400000 "BLOCKHASH" = .error .insufficientFunds ∧
    ∃ r, createPaymentFull sampleKeypair
      { x402Version := 1, error := "", accepts := [{ sampleAccept with maxAmountRequired := "500000" }] }
      500000 "BLOCKHASH" = .ok r := by
  constructor
  · exact ((insufficient_funds_iff sampleKeypair
      { x402Version := 1, error := "", accepts := [{ sampleAccept with maxAmountRequired := "500000" }] }
      400000 "BLOCKHASH" { sampleAccept with maxAmountRequired := "500000" } 500000 rfl
      (by decide)).1).mpr (by decide)
  · exact (insufficient_funds_iff sampleKeypair
      { x402Version := 1, error := "", accepts := [{ sampleAccept with maxAmountRequired := "500000" }] }
      500000 "BLOCKHASH" { sampleAccept with maxAmountRequired := "500000" } 500000 rfl
      (by decide)).2 rfl

/-! ## Claim C3 — challenge validation -/

/-- C3 counterexample: a raw challenge with the protocol version absent
and whose single option is missing payee address, amount, asset and
scheme is parsed successfully; the claim says it must fail with
MalformedChallenge. -/
theorem parse_missing_fields_counterexample :
    (⟨none, none, [⟨none, none, none, none, none, none, none, none, none, none⟩]⟩ :
        RawChallenge).x402Version = none ∧
    ∃ p, parseChallengeRaw
      ⟨none, none, [⟨none, none, none, none, none, none, none, none, none, none⟩]⟩ = .ok p :=
  ⟨rfl, ⟨_, rfl⟩⟩

/-- C3 (amended): parsing a raw challenge fails with MalformedChallenge
exactly when the option list is empty; an absent protocol version or
options missing payee address / amount / asset / scheme are not
validated.  In particular an empty option list always fails. -/
theorem parseRaw_malformed_iff_empty (ch : RawChallenge) :
    parseChallengeRaw ch = .error .malformedChallenge ↔ ch.accepts = [] := by
  constructor
  · intro h
    rcases hacc : ch.accepts with _ | ⟨x, xs⟩
    · rfl
    · unfold parseChallengeRaw at h
      rw [hacc] at h
      simp at h
  · intro h
    unfold parseChallengeRaw
    rw [h]
    rfl

/-! ## Claim C4 — the sign operation -/

/-- C4: for every pair of input messages, the wallet's sign operation
returns the same byte string, namely the keypair's raw secret key itself;
the output is independent of the message and is the private key, not a
signature derived from the message. -/
theorem sign_returns_secret_key (w : AgentWallet) (m1 m2 : List Nat) :
    w.sign m1 = w.sign m2 ∧ w.sign m1 = w.keypair.secretKey :=
  ⟨rfl, rfl⟩

/-! ## Claim C5 — first option selected deterministically -/

/-- C5: for every challenge with at least one option, the parser
deterministically selects option[0] — two challenges agreeing on the
protocol version and the first option parse identically, so no later
option influences the result — and a successful payment's proof envelope
carries exactly option[0]'s scheme and network. -/
theorem first_option_selected (ch ch' : X402Challenge) (a : X402Accept)
    (hh : ch.accepts.head? = some a) (hh' : ch'.accepts.head? = some a)
    (hv : ch.x402Version = ch'.x402Version)
    (kp : Keypair) (bal : Nat) (bh : String) (r : CreatePaymentResult)
    (hr : createPaymentFull kp ch bal bh = .ok r) :
    parseChallenge ch = parseChallenge ch' ∧
    r.envelope.scheme = a.scheme ∧ r.envelope.network = a.network := by
  refine ⟨?_, ?_⟩
  · rw [parseChallenge_head ch a hh, parseChallenge_head ch' a hh', hv]
  · obtain ⟨a', amt, hha, h2, h3, h4, h5, h6, h7, hsch, hnet, h10, h11⟩ :=
      createPaymentFull_ok_inv kp ch bal bh r hr
    have haa : a' = a := by
      rw [hh] at hha
      exact (Option.some.inj hha).symm
    subst haa
    exact ⟨hsch, hnet⟩

/-- C5 witness: a challenge with two options of different schemes parses
like the single-option challenge made of its first option, and the proof
envelope carries the first option's scheme and network. -/
theorem first_option_selected_witness :
    parseChallenge
        { x402Version := 1, error := "e",
          accepts := [sampleAccept, { sampleAccept with scheme := "otherscheme", network := "mainnet" }] } =
      parseChallenge { x402Version := 1, error := "other", accepts := [sampleAccept] } ∧
    ∃ r, createPaymentFull sampleKeypair
        { x402Version := 1, error := "e",
          accepts := [sampleAccept, { sampleAccept with scheme := "otherscheme", network := "mainnet" }] }
        10000 "BLOCKHASH" = .ok r ∧
      r.envelope.scheme = "exact" ∧ r.envelope.network = "solana-devnet" := by
  have h := createPaymentFull_ok sampleKeypair
    { x402Version := 1, error := "e",
      accepts := [sampleAccept, { sampleAccept with scheme := "otherscheme", network := "mainnet" }] }
    10000 "BLOCKHASH" sampleAccept 10000 rfl (by decide) (by decide)
  have main := first_option_selected
    { x402Version := 1, error := "e",
      accepts := [sampleAccept, { sampleAccept with scheme := "otherscheme", network := "mainnet" }] }
    { x402Version := 1, error := "other", accepts := [sampleAccept] }
    sampleAccept rfl rfl rfl sampleKeypair 10000 "BLOCKHASH" _ h
  exact ⟨main.1, _, h, main.2.1, main.2.2⟩

/-! ## Claim C7 — orchestrator transition table -/

/-- C7: the orchestrator's step on the initial purchase response follows
the transition table: status 200 completes the attempt with no proof;
status 402 runs the payment flow, and with a built proof the attempt
completes on a successful resubmission and fails on a rejected one but
retains the proof's identifier in the attempt record; any other status
fails the attempt (the unexpected-status branch) with no proof. -/
theorem purchase_transition_table (kp : Keypair) (status : Nat)
    (ch : X402Challenge) (bal : Nat) (bh : String) (completeOk : Bool) :
    (status = 200 → purchaseImage kp status ch bal bh completeOk =
      { success := true, txHash := none }) ∧
    (∀ proof, status = 402 → createPayment kp ch bal bh = .ok proof →
      purchaseImage kp status ch bal bh completeOk =
        { success := completeOk, txHash := some proof.transactionHash }) ∧
    (∀ e, status = 402 → createPayment kp ch bal bh = .error e →
      purchaseImage kp status ch bal bh completeOk =
        { success := false, txHash := none }) ∧
    (status ≠ 200 → status ≠ 402 → purchaseImage kp status ch bal bh completeOk =
      { success := false, txHash := none }) := by
  refine ⟨?_, ?_, ?_, ?_⟩
  · intro h
    subst h
    rfl
  · intro proof h hok
    subst h
    unfold purchaseImage
    rw [if_pos rfl, hok]
    cases completeOk <;> rfl
  · intro e h herr
    subst h
    unfold purchaseImage
    rw [if_pos rfl, herr]
  · intro h200 h402
    unfold purchaseImage
    rw [if_neg h402, if_neg h200]

/-- C7 witness: a 402 whose resubmission is rejected fails the attempt
yet retains the proof's transaction hash. -/
theorem purchase_transition_table_witness :
    purchaseImage sampleKeypair 402 sampleChallenge 10000 "BLOCKHASH" false =
      { success := false, txHash := some "pending-settlement" } := by
  have h := createPaymentFull_ok sampleKeypair sampleChallenge 10000 "BLOCKHASH"
    sampleAccept 10000 rfl (by decide) (by decide)
  have hok : ∃ pr, createPayment sampleKeypair sampleChallenge 10000 "BLOCKHASH" = .ok pr ∧
      pr.transactionHash = "pending-settlement" := by
    unfold createPayment
    rw [h]
    exact ⟨_, rfl, rfl⟩
  obtain ⟨pr, hok, hhash⟩ := hok
  have hstep := (purchase_transition_table sampleKeypair 402 sampleChallenge 10000 "BLOCKHASH"
    false).2.1 pr rfl hok
  rw [hstep, hhash]

/-! ## Claim C8 — token sub-address resolution -/

/-- C8: in every successful run, the asset-holding sub-addresses of payer
and payee are produced by the pure derivation
`getAssociatedTokenAddress` applied deterministically to the owner
address (payer's key, payee's address) together with the mint the code
uses — the hard-coded USDC devnet mint, whatever asset identifier the
selected option carries; equal owners therefore always resolve to equal
sub-addresses, with no side effects. -/
theorem token_account_resolution (kp : Keypair) (ch : X402Challenge)
    (bal : Nat) (bh : String) (r : CreatePaymentResult) (a : X402Accept)
    (hh : ch.accepts.head? = some a)
    (hr : createPaymentFull kp ch bal bh = .ok r) :
    ∃ amt, r.message.instructions.getLast? = some (Instruction.transferChecked
        (getAssociatedTokenAddress USDC_DEVNET_MINT kp.publicKey)
        USDC_DEVNET_MINT
        (getAssociatedTokenAddress USDC_DEVNET_MINT a.payTo)
        kp.publicKey amt 6) ∧
      getUsdcTokenAccount kp.publicKey =
        getAssociatedTokenAddress USDC_DEVNET_MINT kp.publicKey := by
  obtain ⟨a', amt, hha, h2, h3, h4, h5, h6, hins, h8, h9, h10, h11⟩ :=
    createPaymentFull_ok_inv kp ch bal bh r hr
  have haa : a' = a := by
    rw [hh] at hha
    exact (Option.some.inj hha).symm
  subst haa
  refine ⟨amt, ?_, rfl⟩
  rw [hins]
  rfl

/-- C8 witness: the resolution at a concrete run. -/
theorem token_account_resolution_witness :
    ∃ r, createPaymentFull sampleKeypair sampleChallenge 10000 "BLOCKHASH" = .ok r ∧
      ∃ amt, r.message.instructions.getLast? = some (Instruction.transferChecked
          (getAssociatedTokenAddress USDC_DEVNET_MINT "AGENTPUBKEY")
          USDC_DEVNET_MINT
          (getAssociatedTokenAddress USDC_DEVNET_MINT "PAYEE")
          "AGENTPUBKEY" amt 6) := by
  have h := createPaymentFull_ok sampleKeypair sampleChallenge 10000 "BLOCKHASH"
    sampleAccept 10000 rfl (by decide) (by decide)
  obtain ⟨amt, hlast, -⟩ := token_account_resolution sampleKeypair sampleChallenge
    10000 "BLOCKHASH" _ sampleAccept rfl h
  exact ⟨_, h, amt, hlast⟩

/-! ## Claim C9 — fee payer selection -/

/-- C9 counterexample: a challenge whose selected option carries the fee
payer value "" (an option the claim counts as supplied) does not become
the transaction's fee payer: JS truthiness treats the empty string as
absent, so the payer's own key is used instead. -/
theorem fee_payer_empty_string_counterexample :
    ∃ r, createPaymentFull sampleKeypair
        { x402Version := 1, error := "",
          accepts := [{ sampleAccept with extra := some { feePayer := some "" } }] }
        10000 "BLOCKHASH" = .ok r ∧
      ({ sampleAccept with extra := some { feePayer := some "" } } :
          X402Accept).extra.bind (fun e => e.feePayer) = some "" ∧
      r.message.payerKey ≠ "" := by
  have h := createPaymentFull_ok sampleKeypair
    { x402Version := 1, error := "",
      accepts := [{ sampleAccept with extra := some { feePayer := some "" } }] }
    10000 "BLOCKHASH" { sampleAccept with extra := some { feePayer := some "" } }
    10000 rfl (by decide) (by decide)
  exact ⟨_, h, rfl, by decide⟩

/-- C9 (amended): for every challenge, the transaction's fee payer equals
the challenge-supplied fee payer when the selected option carries a
non-empty one, and defaults to the payer's own address when the challenge
supplies none or supplies the empty string (JS truthiness). -/
theorem fee_payer_resolution (kp : Keypair) (ch : X402Challenge)
    (bal : Nat) (bh : String) (r : CreatePaymentResult) (a : X402Accept)
    (hh : ch.accepts.head? = some a)
    (hr : createPaymentFull kp ch bal bh = .ok r) :
    (∀ f, a.extra.bind (fun e => e.feePayer) = some f → f ≠ "" →
       r.message.payerKey = f) ∧
    (a.extra.bind (fun e => e.feePayer) = none ∨
       a.extra.bind (fun e => e.feePayer) = some "" →
       r.message.payerKey = kp.publicKey) := by
  obtain ⟨a', amt, hha, h2, h3, h4, hpayer, h6, h7, h8, h9, h10, h11⟩ :=
    createPaymentFull_ok_inv kp ch bal bh r hr
  have haa : a' = a := by
    rw [hh] at hha
    exact (Option.some.inj hha).symm
  subst haa
  constructor
  · intro f hf hne
    rw [hpayer, hf]
    simp [resolvedFeePayer, hne]
  · intro hcase
    rcases hcase with hnone | hempty
    · rw [hpayer, hnone]
      rfl
    · rw [hpayer, hempty]
      simp [resolvedFeePayer]

/-- C9 witness: a non-empty challenge-supplied fee payer is used, and an
absent one defaults to the payer's own key. -/
theorem fee_payer_resolution_witness :
    (∃ r, createPaymentFull sampleKeypair
        { x402Version := 1, error := "",
          accepts := [{ sampleAccept with extra := some { feePayer := some "FACILITATOR" } }] }
        10000 "BLOCKHASH" = .ok r ∧ r.message.payerKey = "FACILITATOR") ∧
    (∃ r, createPaymentFull sampleKeypair sampleChallenge 10000 "BLOCKHASH" = .ok r ∧
      r.message.payerKey = "AGENTPUBKEY") := by
  constructor
  · have h := createPaymentFull_ok sampleKeypair
      { x402Version := 1, error := "",
        accepts := [{ sampleAccept with extra := some { feePayer := some "FACILITATOR" } }] }
      10000 "BLOCKHASH" { sampleAccept with extra := some { feePayer := some "FACILITATOR" } }
      10000 rfl (by decide) (by decide)
    refine ⟨_, h, ?_⟩
    exact (fee_payer_resolution sampleKeypair
      { x402Version := 1, error := "",
        accepts := [{ sampleAccept with extra := some { feePayer := some "FACILITATOR" } }] }
      10000 "BLOCKHASH" _
      { sampleAccept with extra := some { feePayer := some "FACILITATOR" } }
      rfl h).1 "FACILITATOR" rfl (by decide)
  · have h := createPaymentFull_ok sampleKeypair sampleChallenge 10000 "BLOCKHASH"
      sampleAccept 10000 rfl (by decide) (by decide)
    refine ⟨_, h, ?_⟩
    exact (fee_payer_resolution sampleKeypair sampleChallenge 10000 "BLOCKHASH" _
      sampleAccept rfl h).2 (Or.inl rfl)

/-! ## Claim C10 — exact base units vs scaled balance check -/

/-- shared helper: below the required amount the run aborts with
InsufficientFunds. -/
theorem createPaymentFull_insufficient (kp : Keypair) (ch : X402Challenge)
    (bal : Nat) (bh : String) (a : X402Accept) (amt : Nat)
    (hh : ch.accepts.head? = some a)
    (hamt : jsBigInt a.maxAmountRequired = some amt)
    (hlt : (bal : ℚ) / 1000000 < (amt : ℚ) / 1000000) :
    createPaymentFull kp ch bal bh = .error .insufficientFunds := by
  unfold createPaymentFull
  rw [parseChallenge_head ch a hh, jsParseInt_of_jsBigInt _ _ hamt]
  simp only [Option.map_some']
  rw [if_pos (by simpa using hlt)]

/-- C10: for every challenge whose maxAmountRequired is a decimal integer
string of value amt, the asset-transfer instruction carries exactly amt
in smallest base units (exact integer arithmetic on the raw string),
whereas the balance precondition is evaluated on amt divided by
1,000,000 — and that fixed 6-decimal scaling is applied regardless of the
challenge's asset: any option with the same amount string, whatever its
asset, yields the same scaled amount. -/
theorem amount_exact_and_scaled_balance (kp : Keypair) (ch : X402Challenge)
    (bal : Nat) (bh : String) (a : X402Accept) (amt : Nat)
    (hh : ch.accepts.head? = some a)
    (hamt : jsBigInt a.maxAmountRequired = some amt) :
    (∀ r, createPaymentFull kp ch bal bh = .ok r →
       r.parsed.amount = some ((amt : ℚ) / 1000000) ∧
       ∃ cl pf, r.message.instructions = [cl, pf, Instruction.transferChecked
         (getUsdcTokenAccount kp.publicKey) USDC_DEVNET_MINT
         (getAssociatedTokenAddress USDC_DEVNET_MINT a.payTo) kp.publicKey amt 6]) ∧
    (createPaymentFull kp ch bal bh = .error .insufficientFunds ↔
       (bal : ℚ) / 1000000 < (amt : ℚ) / 1000000) ∧
    (∀ (ch' : X402Challenge) (a' : X402Accept), ch'.accepts.head? = some a' →
       a'.maxAmountRequired = a.maxAmountRequired →
       ∀ p p', parseChallenge ch = .ok p → parseChallenge ch' = .ok p' →
         p'.amount = p.amount) := by
  refine ⟨?_, ⟨?_, ?_⟩, ?_⟩
  · intro r hr
    obtain ⟨a', amt', hha, hbig, h3, h4, h5, h6, hins, h8, h9, h10, hparsed⟩ :=
      createPaymentFull_ok_inv kp ch bal bh r hr
    have haa : a' = a := by
      rw [hh] at hha
      exact (Option.some.inj hha).symm
    subst haa
    have hamt' : amt' = amt := by
      rw [hamt] at hbig
      exact (Option.some.inj hbig).symm
    subst hamt'
    rw [hparsed]
    exact ⟨rfl, _, _, hins⟩
  · intro herr
    by_contra hge
    rw [div_millionth_lt] at hge
    push_neg at hge
    have h := createPaymentFull_ok kp ch bal bh a amt hh hamt hge
    rw [h] at herr
    exact Except.noConfusion herr
  · intro hlt
    exact createPaymentFull_insufficient kp ch bal bh a amt hh hamt hlt
  · intro ch' a' hha' heq p p' hp hp'
    rw [parseChallenge_head ch a hh] at hp
    rw [parseChallenge_head ch' a' hha'] at hp'
    have hp := Except.ok.inj hp
    have hp' := Except.ok.inj hp'
    rw [← hp, ← hp']
    simp only [heq]

/-- C10 witness: at a concrete run the transfer carries 10000 base units
and the balance precondition uses 10000 / 1000000. -/
theorem amount_exact_and_scaled_balance_witness :
    ∃ r, createPaymentFull sampleKeypair sampleChallenge 10000 "BLOCKHASH" = .ok r ∧
      r.parsed.amount = some ((10000 : ℚ) / 1000000) ∧
      ∃ cl pf, r.message.instructions = [cl, pf, Instruction.transferChecked
        (getUsdcTokenAccount "AGENTPUBKEY") USDC_DEVNET_MINT
        (getAssociatedTokenAddress USDC_DEVNET_MINT "PAYEE") "AGENTPUBKEY" 10000 6] := by
  have h := createPaymentFull_ok sampleKeypair sampleChallenge 10000 "BLOCKHASH"
    sampleAccept 10000 rfl (by decide) (by decide)
  obtain ⟨hamount, hcl⟩ := (amount_exact_and_scaled_balance sampleKeypair sampleChallenge
    10000 "BLOCKHASH" sampleAccept 10000 rfl (by decide)).1 _ h
  exact ⟨_, h, hamount, hcl⟩
